import Mathlib

/-
Verification of the macauff island-level Bayesian resolution engine and its
supporting routines.

The counterpart-pairing module itself ships only as tests in this tree, so the
island resolver (`_individual_island_probability` / `source_pairing`) is
modelled from the specification: hypotheses are partial bijections between an
island's catalogue-A and catalogue-B members, each scored as the product of
per-pair astrometric likelihood times counterpart prior, times field priors
for the unpaired members; the normalising integral is the sum of all scores,
the selected hypothesis is the score maximum, and a zero integral falls back
to posterior one.  The perturbation-AUF configuration validation, the
constant-latitude Haversine distance, the longitude cut and the local-density
computation are embedded directly from the Python sources.
-/

namespace Macauff

/-- A hypothesis inside an island: a list of (A-index, B-index) pairs. -/
abbrev Pairing := List (Nat × Nat)

/-- Modelled from the spec: the HypothesisEnumerator of counterpart_pairing
(not under src/) generates every partial bijection between the island's
A-sources and B-sources, including the all-field (empty) assignment.  The
head source is either left as field or paired with each available B-source
in turn. -/
def enumHyps : List Nat → List Nat → List Pairing
  | [], _ => [[]]
  | a :: as, bs =>
      enumHyps as bs ++
        (bs.map (fun b => (enumHyps as (bs.erase b)).map (fun h => (a, b) :: h))).flatten

/-- Product over the paired sources of astrometric likelihood times
counterpart prior density. -/
def pairedScore (G Nc : Nat → Nat → ℚ) (h : Pairing) : ℚ :=
  (h.map (fun p => G p.1 p.2 * Nc p.1 p.2)).prod

/-- A-sources of the island left unpaired by hypothesis `h`. -/
def unpairedA (h : Pairing) (aIdx : List Nat) : List Nat :=
  aIdx.filter (fun a => !(h.any (fun p => p.1 == a)))

/-- B-sources of the island left unpaired by hypothesis `h`. -/
def unpairedB (h : Pairing) (bIdx : List Nat) : List Nat :=
  bIdx.filter (fun b => !(h.any (fun p => p.2 == b)))

/-- Modelled from the spec: the score of one hypothesis is the product over
paired sources of astrometric likelihood times counterpart prior density,
times field prior densities for every unpaired source.  (The photometric
likelihood ratio is one when photometric priors are disabled.) -/
def hypScore (G Nc : Nat → Nat → ℚ) (Nfa Nfb : Nat → ℚ) (aIdx bIdx : List Nat)
    (h : Pairing) : ℚ :=
  pairedScore G Nc h * ((unpairedA h aIdx).map Nfa).prod *
    ((unpairedB h bIdx).map Nfb).prod

/-- First maximal element of a hypothesis list under score `f`; the head is
kept on ties, matching an argmax scan. -/
def argmaxBy (f : Pairing → ℚ) : List Pairing → Pairing
  | [] => []
  | h :: t => t.foldl (fun best x => if f best < f x then x else best) h

/-- Resolution outputs of one island. -/
structure IslandResult where
  crpts : Pairing
  afield : List Nat
  bfield : List Nat
  prob : ℚ
  integral : ℚ
  posterior : ℚ
  deriving DecidableEq

/-- One island: the A-source indices and B-source indices it contains. -/
structure Island where
  aIdx : List Nat
  bIdx : List Nat
  deriving DecidableEq

/-- Modelled from the spec: `_individual_island_probability` of
counterpart_pairing (not under src/).  Every hypothesis is scored, the
normalising integral is the sum of all scores, the selected hypothesis is the
one of maximum score, and its posterior probability is the maximal score over
the integral, falling back to one when the integral is zero. -/
def individual_island_probability (G Nc : Nat → Nat → ℚ) (Nfa Nfb : Nat → ℚ)
    (isl : Island) : IslandResult :=
  let hyps := enumHyps isl.aIdx isl.bIdx
  let score := hypScore G Nc Nfa Nfb isl.aIdx isl.bIdx
  let best := argmaxBy score hyps
  let z := (hyps.map score).sum
  { crpts := best
    afield := unpairedA best isl.aIdx
    bfield := unpairedB best isl.bIdx
    prob := score best
    integral := z
    posterior := if z = 0 then 1 else score best / z }

/-- Counterpart A-indices accumulated over a list of islands. -/
def source_pairing_ac (G Nc : Nat → Nat → ℚ) (Nfa Nfb : Nat → ℚ)
    (islands : List Island) : List Nat :=
  (islands.map (fun isl =>
    ((individual_island_probability G Nc Nfa Nfb isl).crpts.map Prod.fst))).flatten

/-- Counterpart B-indices accumulated over a list of islands. -/
def source_pairing_bc (G Nc : Nat → Nat → ℚ) (Nfa Nfb : Nat → ℚ)
    (islands : List Island) : List Nat :=
  (islands.map (fun isl =>
    ((individual_island_probability G Nc Nfa Nfb isl).crpts.map Prod.snd))).flatten

/-- Field A-indices accumulated over a list of islands. -/
def source_pairing_af (G Nc : Nat → Nat → ℚ) (Nfa Nfb : Nat → ℚ)
    (islands : List Island) : List Nat :=
  (islands.map (fun isl =>
    (individual_island_probability G Nc Nfa Nfb isl).afield)).flatten

/-- Field B-indices accumulated over a list of islands. -/
def source_pairing_bf (G Nc : Nat → Nat → ℚ) (Nfa Nfb : Nat → ℚ)
    (islands : List Island) : List Nat :=
  (islands.map (fun isl =>
    (individual_island_probability G Nc Nfa Nfb isl).bfield)).flatten

/-- Which catalogue a reconciliation warning concerns. -/
inductive CatSide where
  | a
  | b
  deriving DecidableEq

/-- Direction of a reconciliation discrepancy: fewer indices recorded than
catalogue sources, or more. -/
inductive WarnDir where
  | tooFew
  | tooMany
  deriving DecidableEq

/-- A non-fatal reconciliation warning: affected catalogue side, direction of
the discrepancy, and its exact count. -/
structure LengthWarning where
  side : CatSide
  dir : WarnDir
  count : Nat
  deriving DecidableEq

/-- Modelled from the spec: the reconciliation pass of source_pairing (not
under src/) compares the recorded counterpart+field+rejected index count of
each catalogue with that catalogue's source count and emits, per side, a
descriptive warning carrying the exact count and direction of any
discrepancy. -/
def reconcile_warnings (recA totA recB totB : Nat) : List LengthWarning :=
  (if recA < totA then [⟨CatSide.a, WarnDir.tooFew, totA - recA⟩]
   else if totA < recA then [⟨CatSide.a, WarnDir.tooMany, recA - totA⟩]
   else []) ++
  (if recB < totB then [⟨CatSide.b, WarnDir.tooFew, totB - recB⟩]
   else if totB < recB then [⟨CatSide.b, WarnDir.tooMany, recB - totB⟩]
   else [])

/-- Full outputs of a source-pairing run, warnings included. -/
structure PairingRun where
  ac : List Nat
  bc : List Nat
  af : List Nat
  bf : List Nat
  warnings : List LengthWarning
  deriving DecidableEq

/-- Modelled from the spec: `source_pairing` of counterpart_pairing (not
under src/).  Every island is resolved independently, per-island outputs are
concatenated into catalogue-wide arrays, and the reconciliation pass emits
non-fatal warnings; the computed outputs are returned in every case. -/
def source_pairing (G Nc : Nat → Nat → ℚ) (Nfa Nfb : Nat → ℚ)
    (islands : List Island) (aRej bRej : List Nat) (na nb : Nat) : PairingRun :=
  let ac := source_pairing_ac G Nc Nfa Nfb islands
  let bc := source_pairing_bc G Nc Nfa Nfb islands
  let af := source_pairing_af G Nc Nfa Nfb islands
  let bf := source_pairing_bf G Nc Nfa Nfb islands
  { ac := ac, bc := bc, af := af, bf := bf
    warnings := reconcile_warnings (ac.length + af.length + aRej.length) na
      (bc.length + bf.length + bRej.length) nb }

/-- Chunked accumulation of counterpart A-indices: each chunk of islands is
processed independently and per-chunk results are concatenated, as done by
the worker pool over contiguous island chunks. -/
def chunked_ac (G Nc : Nat → Nat → ℚ) (Nfa Nfb : Nat → ℚ)
    (chunks : List (List Island)) : List Nat :=
  (chunks.map (fun c => source_pairing_ac G Nc Nfa Nfb c)).flatten

/-- Chunked accumulation of counterpart B-indices. -/
def chunked_bc (G Nc : Nat → Nat → ℚ) (Nfa Nfb : Nat → ℚ)
    (chunks : List (List Island)) : List Nat :=
  (chunks.map (fun c => source_pairing_bc G Nc Nfa Nfb c)).flatten

/-- Chunked accumulation of field A-indices. -/
def chunked_af (G Nc : Nat → Nat → ℚ) (Nfa Nfb : Nat → ℚ)
    (chunks : List (List Island)) : List Nat :=
  (chunks.map (fun c => source_pairing_af G Nc Nfa Nfb c)).flatten

/-- Chunked accumulation of field B-indices. -/
def chunked_bf (G Nc : Nat → Nat → ℚ) (Nfa Nfb : Nat → ℚ)
    (chunks : List (List Island)) : List Nat :=
  (chunks.map (fun c => source_pairing_bf G Nc Nfa Nfb c)).flatten

/-- Keyword arguments of `make_perturb_aufs` (perturbation_auf.py lines
21-31) that take part in the validation block of lines 221-288.  Only the
presence (`some`) or absence (`none`) of each optional argument, and the
values of the boolean flags, are consumed by that block, so optional array
and scalar arguments are embedded as `Option Unit`. -/
structure PerturbConfig where
  include_perturb_auf : Bool
  tri_download_flag : Bool
  tri_set_name : Option Unit
  tri_filt_num : Option Unit
  auf_region_frame : Option Unit
  tri_filt_names : Option Unit
  delta_mag_cuts : Option Unit
  psf_fwhms : Option Unit
  num_trials : Option Unit
  j0s : Option Unit
  density_mags : Option Unit
  d_mag : Option Unit
  run_fw : Option Bool
  run_psf : Option Bool
  dd_params : Option Unit
  l_cut : Option Unit
  mag_h_params : Option Unit
  compute_local_density : Option Bool
  density_radius : Option Unit
  fit_gal_flag : Option Bool
  cmau_array : Option Unit
  wavs : Option Unit
  z_maxs : Option Unit
  nzs : Option Unit
  ab_offsets : Option Unit
  filter_names : Option Unit
  al_avs : Option Unit
  alpha0 : Option Unit
  alpha1 : Option Unit
  alpha_weight : Option Unit
  deriving DecidableEq

/-- The validation block of `make_perturb_aufs` (perturbation_auf.py lines
221-288): the sequence of `if ...: raise ValueError(...)` checks run before
any catalogue file is loaded.  Returns the message of the first failing
check, or `none` when validation passes.  The two `elif` branches that fake
`dd_params` and `l_cut` arrays raise no error and alter no later check, so
they do not appear here. -/
def make_perturb_aufs_checks (c : PerturbConfig) : Option String :=
  if c.include_perturb_auf && c.tri_download_flag && c.tri_set_name.isNone then
    some "tri_set_name must be given if include_perturb_auf and tri_download_flag are both True."
  else if c.include_perturb_auf && c.tri_download_flag && c.tri_filt_num.isNone then
    some "tri_filt_num must be given if include_perturb_auf and tri_download_flag are both True."
  else if c.include_perturb_auf && c.tri_download_flag && c.auf_region_frame.isNone then
    some "auf_region_frame must be given if include_perturb_auf and tri_download_flag are both True."
  else if c.include_perturb_auf && c.tri_filt_names.isNone then
    some "tri_filt_names must be given if include_perturb_auf is True."
  else if c.include_perturb_auf && c.delta_mag_cuts.isNone then
    some "delta_mag_cuts must be given if include_perturb_auf is True."
  else if c.include_perturb_auf && c.psf_fwhms.isNone then
    some "psf_fwhms must be given if include_perturb_auf is True."
  else if c.include_perturb_auf && c.num_trials.isNone then
    some "num_trials must be given if include_perturb_auf is True."
  else if c.include_perturb_auf && c.j0s.isNone then
    some "j0s must be given if include_perturb_auf is True."
  else if c.include_perturb_auf && c.density_mags.isNone then
    some "density_mags must be given if include_perturb_auf is True."
  else if c.include_perturb_auf && c.d_mag.isNone then
    some "d_mag must be given if include_perturb_auf is True."
  else if c.include_perturb_auf && c.run_fw.isNone then
    some "run_fw must be given if include_perturb_auf is True."
  else if c.include_perturb_auf && c.run_psf.isNone then
    some "run_psf must be given if include_perturb_auf is True."
  else if c.include_perturb_auf && c.run_psf == some true && c.dd_params.isNone then
    some "dd_params must be given if include_perturb_auf and run_psf are True."
  else if c.include_perturb_auf && c.run_psf == some true && c.l_cut.isNone then
    some "l_cut must be given if include_perturb_auf and run_psf are True."
  else if c.include_perturb_auf && c.mag_h_params.isNone then
    some "mag_h_params must be given if include_perturb_auf is True."
  else if c.include_perturb_auf && c.compute_local_density.isNone then
    some "compute_local_density must be given if include_perturb_auf is True."
  else if c.include_perturb_auf && c.compute_local_density == some true
      && c.density_radius.isNone then
    some "density_radius must be given if include_perturb_auf and compute_local_density are both True."
  else if c.include_perturb_auf && c.fit_gal_flag.isNone then
    some "fit_gal_flag must not be None if include_perturb_auf is True."
  else if c.include_perturb_auf && c.fit_gal_flag == some true && c.cmau_array.isNone then
    some "cmau_array must be given if fit_gal_flag is True."
  else if c.include_perturb_auf && c.fit_gal_flag == some true && c.wavs.isNone then
    some "wavs must be given if fit_gal_flag is True."
  else if c.include_perturb_auf && c.fit_gal_flag == some true && c.z_maxs.isNone then
    some "z_maxs must be given if fit_gal_flag is True."
  else if c.include_perturb_auf && c.fit_gal_flag == some true && c.nzs.isNone then
    some "nzs must be given if fit_gal_flag is True."
  else if c.include_perturb_auf && c.fit_gal_flag == some true && c.ab_offsets.isNone then
    some "ab_offsets must be given if fit_gal_flag is True."
  else if c.include_perturb_auf && c.fit_gal_flag == some true && c.filter_names.isNone then
    some "filter_names must be given if fit_gal_flag is True."
  else if c.include_perturb_auf && c.fit_gal_flag == some true && c.al_avs.isNone then
    some "al_avs must be given if fit_gal_flag is True."
  else if c.include_perturb_auf && c.fit_gal_flag == some true && c.alpha0.isNone then
    some "alpha0 must be given if fit_gal_flag is True."
  else if c.include_perturb_auf && c.fit_gal_flag == some true && c.alpha1.isNone then
    some "alpha1 must be given if fit_gal_flag is True."
  else if c.include_perturb_auf && c.fit_gal_flag == some true && c.alpha_weight.isNone then
    some "alpha_weight must be given if fit_gal_flag is True."
  else
    none

/-- `make_perturb_aufs` (perturbation_auf.py line 21): the validation block
runs first and a failing check raises before the catalogue is read (the
first `np.load` is at line 293, after every check); the post-validation
simulation is abstracted as `process` applied to the catalogue data. -/
def make_perturb_aufs (process : List ℚ → List ℚ) (c : PerturbConfig)
    (catalogue : List ℚ) : Except String (List ℚ) :=
  match make_perturb_aufs_checks c with
  | some msg => Except.error msg
  | none => Except.ok (process catalogue)

/-- A `PerturbConfig` with `include_perturb_auf` on and every optional
argument supplied, used to exercise each validation branch in isolation. -/
def fullPerturbConfig : PerturbConfig where
  include_perturb_auf := true
  tri_download_flag := true
  tri_set_name := some ()
  tri_filt_num := some ()
  auf_region_frame := some ()
  tri_filt_names := some ()
  delta_mag_cuts := some ()
  psf_fwhms := some ()
  num_trials := some ()
  j0s := some ()
  density_mags := some ()
  d_mag := some ()
  run_fw := some true
  run_psf := some true
  dd_params := some ()
  l_cut := some ()
  mag_h_params := some ()
  compute_local_density := some true
  density_radius := some ()
  fit_gal_flag := some true
  cmau_array := some ()
  wavs := some ()
  z_maxs := some ()
  nzs := some ()
  ab_offsets := some ()
  filter_names := some ()
  al_avs := some ()
  alpha0 := some ()
  alpha1 := some ()
  alpha_weight := some ()

/-- The per-chunk count assignment of `calculate_local_density`
(perturbation_auf.py lines 775-790): when the sub-chunk has bright overlap
sources the neighbour counts are used with zeros replaced by one, and when
it has none every source in the sub-chunk is assigned count one. -/
def local_density_full_counts (hasBright : Bool) (counts : List Nat) : List Nat :=
  if hasBright then counts.map (fun c => if c = 0 then 1 else c)
  else counts.map (fun _ => 1)

/-- The final step of `calculate_local_density` (perturbation_auf.py line
797): `count_density = full_counts / circle_overlap_area`, elementwise.  The
circle-overlap areas come from Fortran code outside src/ and enter as a
parameter. -/
def count_density (hasBright : Bool) (counts : List Nat) (areas : List ℚ) : List ℚ :=
  List.zipWith (fun (c : Nat) (a : ℚ) => (c : ℚ) / a)
    (local_density_full_counts hasBright counts) areas

noncomputable section

/-- `np.radians`: degrees to radians. -/
def radians (d : ℝ) : ℝ := d * Real.pi / 180

/-- `np.degrees`: radians to degrees. -/
def degrees (r : ℝ) : ℝ := r * 180 / Real.pi

/-- `hav_dist_constant_lat` (misc_functions.py lines 120-144): the Haversine
formula in the limit that the sky separation is determined by longitudinal
separation alone. -/
def hav_dist_constant_lat (x_lon x_lat lon : ℝ) : ℝ :=
  degrees (2 * Real.arcsin |Real.cos (radians x_lat) *
    Real.sin (radians ((x_lon - lon) / 2))|)

/-- The full Haversine great-circle separation between two sky positions, in
degrees: the reference formula `hav_dist_constant_lat` specialises. -/
def haversine_dist (lon1 lat1 lon2 lat2 : ℝ) : ℝ :=
  degrees (2 * Real.arcsin (Real.sqrt
    (Real.sin (radians ((lat1 - lat2) / 2)) ^ 2 +
      Real.cos (radians lat1) * Real.cos (radians lat2) *
        Real.sin (radians ((lon1 - lon2) / 2)) ^ 2)))

/-- The longitude wrap of `_lon_cut` (misc_functions.py lines 215-217):
shifted longitudes above 360 drop by 360 and those below 0 gain 360. -/
def wrap360 (b : ℝ) : ℝ :=
  if 360 < b then b - 360 else if b < 0 then b + 360 else b

/-- The shifted-longitude inequality of `_lon_cut` (misc_functions.py lines
221-226), for one source with longitude `slon`: `lesser` compares the
wrapped shifted longitude against `lon + lon_shift` from below, `greater`
from above, each with a `1e-6` rounding allowance. -/
def inequal_lon_cut (slon lon lon_shift : ℝ) (lesser : Bool) : Prop :=
  if lesser then wrap360 (slon + lon_shift) ≤ lon + lon_shift + 1e-6
  else lon + lon_shift - 1e-6 ≤ wrap360 (slon + lon_shift)

/-- `_lon_cut` (misc_functions.py lines 188-240) for one source at
(`slon`, `slat`): with positive padding a source passes when its
constant-latitude Haversine distance to `lon` is at most the padding or the
shifted-longitude inequality holds; with zero padding only the inequality
counts. -/
def lon_cut (slon slat lon padding : ℝ) (lesser : Bool) (lon_shift : ℝ) : Prop :=
  if 0 < padding then
    hav_dist_constant_lat slon slat lon ≤ padding ∨
      inequal_lon_cut slon lon lon_shift lesser
  else inequal_lon_cut slon lon lon_shift lesser

/-- A catalogue source as consumed by the pairwise likelihood: sky position
(degrees) and one-sigma positional uncertainty. -/
structure Source where
  lon : ℝ
  lat : ℝ
  sig : ℝ

/-- The separation entering the astrometric likelihood: great-circle
separation in the small-angle limit, with the cosine-of-latitude correction
on the longitude component (as in `_calculate_prob_integral` of
test_counterpart_pairing.py lines 166-177). -/
def sep_cos_lat (A B : Source) : ℝ :=
  Real.sqrt (((A.lon - B.lon) * Real.cos (radians B.lat)) ^ 2 +
    (A.lat - B.lat) ^ 2)

/-- Quadrature sum of the two sources' positional uncertainties. -/
def combined_sigma_sq (A B : Source) : ℝ := A.sig ^ 2 + B.sig ^ 2

/-- A circular bivariate Gaussian density of variance `s2` evaluated at
offset (`dx`, `dy`). -/
def gauss2d (s2 dx dy : ℝ) : ℝ :=
  1 / (2 * Real.pi * s2) * Real.exp (-(dx ^ 2 + dy ^ 2) / (2 * s2))

/-- Modelled from the spec: the astrometric match likelihood of
counterpart_pairing's `cpf.contam_match_prob` (not under src/) is the
two-dimensional Gaussian in the angular offset between the sources, with
variance the quadrature sum of both positional uncertainties. -/
def astrometric_likelihood (A B : Source) : ℝ :=
  gauss2d (combined_sigma_sq A B) ((A.lon - B.lon) * Real.cos (radians B.lat))
    (A.lat - B.lat)

end

theorem filter_mem_of_sublist : ∀ {l' l : List Nat}, l'.Sublist l → l.Nodup →
    l.filter (fun a => decide (a ∈ l')) = l' := by
  intro l' l hs
  induction hs with
  | slnil => intro _; rfl
  | @cons l₁ l₂ a hsub ih =>
    intro hn
    rw [List.nodup_cons] at hn
    have ha : a ∉ l₁ := fun hmem => hn.1 (hsub.subset hmem)
    simp only [List.filter_cons, decide_eq_true_eq, if_neg ha]
    exact ih hn.2
  | @cons₂ l₁ l₂ a hsub ih =>
    intro hn
    rw [List.nodup_cons] at hn
    have hcongr : ∀ x ∈ l₂, (decide (x ∈ a :: l₁) : Bool) = decide (x ∈ l₁) := by
      intro x hx
      have hxa : x ≠ a := fun hxa => hn.1 (hxa ▸ hx)
      simp [List.mem_cons, hxa]
    simp only [List.filter_cons]
    rw [if_pos (by simp), List.filter_congr hcongr, ih hn.2]

theorem enumHyps_ne_nil (as bs : List Nat) : enumHyps as bs ≠ [] := by
  induction as generalizing bs with
  | nil => simp [enumHyps]
  | cons a t ih =>
    simp only [enumHyps, ne_eq, List.append_eq_nil]
    intro hcon
    exact ih bs hcon.1

theorem foldl_choose_mem (f : Pairing → ℚ) :
    ∀ (t : List Pairing) (h : Pairing),
      t.foldl (fun best x => if f best < f x then x else best) h ∈ h :: t := by
  intro t
  induction t with
  | nil => intro h; simp
  | cons x t ih =>
    intro h
    simp only [List.foldl_cons]
    have hmem := ih (if f h < f x then x else h)
    rw [List.mem_cons] at hmem
    rcases hmem with heq | hmem
    · rw [heq]
      by_cases hc : f h < f x
      · simp [hc]
      · simp [hc]
    · exact List.mem_cons_of_mem _ (List.mem_cons_of_mem _ hmem)

theorem argmaxBy_mem (f : Pairing → ℚ) {l : List Pairing} (hl : l ≠ []) :
    argmaxBy f l ∈ l := by
  cases l with
  | nil => exact absurd rfl hl
  | cons h t => exact foldl_choose_mem f t h

theorem enumHyps_fst_sublist : ∀ {as bs : List Nat} {h : Pairing},
    h ∈ enumHyps as bs → (h.map Prod.fst).Sublist as := by
  intro as
  induction as with
  | nil =>
    intro bs h hmem
    simp only [enumHyps, List.mem_singleton] at hmem
    simp [hmem]
  | cons a t ih =>
    intro bs h hmem
    simp only [enumHyps, List.mem_append, List.mem_flatten, List.mem_map] at hmem
    rcases hmem with hmem | ⟨l, ⟨b, _, rfl⟩, hmem⟩
    · exact (ih hmem).cons a
    · simp only [List.mem_map] at hmem
      obtain ⟨h', hh', rfl⟩ := hmem
      exact (ih hh').cons₂ a

theorem enumHyps_snd_subperm : ∀ {as bs : List Nat} {h : Pairing},
    h ∈ enumHyps as bs → ∃ l : List Nat, l.Perm (h.map Prod.snd) ∧ l.Sublist bs := by
  intro as
  induction as with
  | nil =>
    intro bs h hmem
    simp only [enumHyps, List.mem_singleton] at hmem
    exact ⟨[], by simp [hmem], List.nil_sublist bs⟩
  | cons a t ih =>
    intro bs h hmem
    simp only [enumHyps, List.mem_append, List.mem_flatten, List.mem_map] at hmem
    rcases hmem with hmem | ⟨l, ⟨b, hb, rfl⟩, hmem⟩
    · exact ih hmem
    · simp only [List.mem_map] at hmem
      obtain ⟨h', hh', rfl⟩ := hmem
      obtain ⟨l', hperm, hsub⟩ := ih hh'
      have hsp : (b :: (h'.map Prod.snd)).Subperm bs := by
        have h1 : ((h' : Pairing).map Prod.snd).Subperm (bs.erase b) := ⟨l', hperm, hsub⟩
        have h2 : (b :: (h'.map Prod.snd)).Subperm (b :: bs.erase b) :=
          (List.subperm_cons b).mpr h1
        exact ((List.perm_cons_erase hb).subperm_left).mpr h2
      obtain ⟨l'', hperm'', hsub''⟩ := hsp
      exact ⟨l'', by simpa using hperm'', hsub''⟩

theorem unpairedA_eq_filter (h : Pairing) (as : List Nat) :
    unpairedA h as = as.filter (fun a => !(decide (a ∈ h.map Prod.fst))) := by
  unfold unpairedA
  apply List.filter_congr
  intro a _
  congr 1
  rw [Bool.eq_iff_iff]
  simp [List.any_eq_true, List.mem_map, beq_iff_eq]

theorem unpairedB_eq_filter (h : Pairing) (bs : List Nat) :
    unpairedB h bs = bs.filter (fun b => !(decide (b ∈ h.map Prod.snd))) := by
  unfold unpairedB
  apply List.filter_congr
  intro b _
  congr 1
  rw [Bool.eq_iff_iff]
  simp [List.any_eq_true, List.mem_map, beq_iff_eq]

theorem sel_append_unpaired_perm {sel l : List Nat} (hn : l.Nodup)
    (hsp : ∃ t : List Nat, t.Perm sel ∧ t.Sublist l) :
    (sel ++ l.filter (fun a => !(decide (a ∈ sel)))).Perm l := by
  obtain ⟨t, htp, hts⟩ := hsp
  have hfe : l.filter (fun a => decide (a ∈ sel)) = t := by
    rw [← filter_mem_of_sublist hts hn]
    apply List.filter_congr
    intro x _
    simp [htp.mem_iff]
  have h1 : (sel ++ l.filter (fun a => !(decide (a ∈ sel)))).Perm
      (t ++ l.filter (fun a => !(decide (a ∈ sel)))) :=
    (htp.symm).append_right _
  have h2 : (t ++ l.filter (fun a => !(decide (a ∈ sel)))).Perm l := by
    rw [← hfe]
    exact List.filter_append_perm _ l
  exact h1.trans h2

theorem iip_crpts_mem (G Nc : Nat → Nat → ℚ) (Nfa Nfb : Nat → ℚ) (isl : Island) :
    (individual_island_probability G Nc Nfa Nfb isl).crpts ∈
      enumHyps isl.aIdx isl.bIdx :=
  argmaxBy_mem _ (enumHyps_ne_nil _ _)

theorem island_partition (G Nc : Nat → Nat → ℚ) (Nfa Nfb : Nat → ℚ) (isl : Island)
    (ha : isl.aIdx.Nodup) (hb : isl.bIdx.Nodup) :
    ((((individual_island_probability G Nc Nfa Nfb isl).crpts.map Prod.fst) ++
        (individual_island_probability G Nc Nfa Nfb isl).afield).Perm isl.aIdx) ∧
    ((((individual_island_probability G Nc Nfa Nfb isl).crpts.map Prod.snd) ++
        (individual_island_probability G Nc Nfa Nfb isl).bfield).Perm isl.bIdx) := by
  have hmem := iip_crpts_mem G Nc Nfa Nfb isl
  constructor
  · have hafield : (individual_island_probability G Nc Nfa Nfb isl).afield =
        unpairedA (individual_island_probability G Nc Nfa Nfb isl).crpts isl.aIdx := rfl
    rw [hafield, unpairedA_eq_filter]
    exact sel_append_unpaired_perm ha
      ⟨_, List.Perm.refl _, enumHyps_fst_sublist hmem⟩
  · have hbfield : (individual_island_probability G Nc Nfa Nfb isl).bfield =
        unpairedB (individual_island_probability G Nc Nfa Nfb isl).crpts isl.bIdx := rfl
    rw [hbfield, unpairedB_eq_filter]
    exact sel_append_unpaired_perm hb (enumHyps_snd_subperm hmem)

theorem flatten_append_perm {L : List Island} {f g k : Island → List Nat}
    (hfk : ∀ isl ∈ L, ((f isl) ++ (g isl)).Perm (k isl)) :
    ((L.map f).flatten ++ (L.map g).flatten).Perm (L.map k).flatten := by
  induction L with
  | nil => simp
  | cons isl t ih =>
    simp only [List.map_cons, List.flatten_cons]
    have hshuffle : ((f isl ++ (t.map f).flatten) ++ (g isl ++ (t.map g).flatten)).Perm
        ((f isl ++ g isl) ++ ((t.map f).flatten ++ (t.map g).flatten)) := by
      have hmid : ((t.map f).flatten ++ (g isl ++ (t.map g).flatten)).Perm
          (g isl ++ ((t.map f).flatten ++ (t.map g).flatten)) := by
        rw [← List.append_assoc, ← List.append_assoc]
        exact List.perm_append_comm.append_right _
      simp only [List.append_assoc]
      exact hmid.append_left _
    refine hshuffle.trans ?_
    exact List.Perm.append (hfk isl (by simp))
      (ih (fun i hi => hfk i (List.mem_cons_of_mem _ hi)))

/-- C4: after source_pairing completes on well-formed inputs (each catalogue
index appearing exactly once across the islands plus the external reject
list), membership tags partition both catalogues exactly: the counterpart,
field and externally-rejected output index lists together contain every
A-source index and every B-source index exactly once, and a source appears
as a counterpart in at most one pairing (the counterpart lists are
duplicate-free). -/
theorem source_pairing_partition
    (G Nc : Nat → Nat → ℚ) (Nfa Nfb : Nat → ℚ) (islands : List Island)
    (aRej bRej : List Nat) (na nb : Nat)
    (hA : ((islands.map Island.aIdx).flatten ++ aRej).Perm (List.range na))
    (hB : ((islands.map Island.bIdx).flatten ++ bRej).Perm (List.range nb)) :
    ((source_pairing_ac G Nc Nfa Nfb islands ++ source_pairing_af G Nc Nfa Nfb islands
        ++ aRej).Perm (List.range na)) ∧
    ((source_pairing_bc G Nc Nfa Nfb islands ++ source_pairing_bf G Nc Nfa Nfb islands
        ++ bRej).Perm (List.range nb)) ∧
    (∀ i, i < na → (source_pairing_ac G Nc Nfa Nfb islands ++
        source_pairing_af G Nc Nfa Nfb islands ++ aRej).count i = 1) ∧
    (∀ i, i < nb → (source_pairing_bc G Nc Nfa Nfb islands ++
        source_pairing_bf G Nc Nfa Nfb islands ++ bRej).count i = 1) ∧
    (source_pairing_ac G Nc Nfa Nfb islands).Nodup ∧
    (source_pairing_bc G Nc Nfa Nfb islands).Nodup := by
  have hAnodup : ((islands.map Island.aIdx).flatten ++ aRej).Nodup :=
    hA.symm.nodup (List.nodup_range na)
  have hBnodup : ((islands.map Island.bIdx).flatten ++ bRej).Nodup :=
    hB.symm.nodup (List.nodup_range nb)
  have hAper : ∀ isl ∈ islands, isl.aIdx.Nodup := by
    intro isl hisl
    exact (List.nodup_flatten.mp hAnodup.of_append_left).1 _
      (List.mem_map_of_mem _ hisl)
  have hBper : ∀ isl ∈ islands, isl.bIdx.Nodup := by
    intro isl hisl
    exact (List.nodup_flatten.mp hBnodup.of_append_left).1 _
      (List.mem_map_of_mem _ hisl)
  have hpermA : (source_pairing_ac G Nc Nfa Nfb islands ++
      source_pairing_af G Nc Nfa Nfb islands).Perm (islands.map Island.aIdx).flatten := by
    exact flatten_append_perm (fun isl hisl =>
      (island_partition G Nc Nfa Nfb isl (hAper isl hisl) (hBper isl hisl)).1)
  have hpermB : (source_pairing_bc G Nc Nfa Nfb islands ++
      source_pairing_bf G Nc Nfa Nfb islands).Perm (islands.map Island.bIdx).flatten := by
    exact flatten_append_perm (fun isl hisl =>
      (island_partition G Nc Nfa Nfb isl (hAper isl hisl) (hBper isl hisl)).2)
  have hfullA : (source_pairing_ac G Nc Nfa Nfb islands ++
      source_pairing_af G Nc Nfa Nfb islands ++ aRej).Perm (List.range na) :=
    (hpermA.append_right aRej).trans hA
  have hfullB : (source_pairing_bc G Nc Nfa Nfb islands ++
      source_pairing_bf G Nc Nfa Nfb islands ++ bRej).Perm (List.range nb) :=
    (hpermB.append_right bRej).trans hB
  refine ⟨hfullA, hfullB, ?_, ?_, ?_, ?_⟩
  · intro i hi
    exact (hfullA.count_eq i).trans
      (List.count_eq_one_of_mem (List.nodup_range na) (List.mem_range.mpr hi))
  · intro i hi
    exact (hfullB.count_eq i).trans
      (List.count_eq_one_of_mem (List.nodup_range nb) (List.mem_range.mpr hi))
  · exact (hfullA.symm.nodup (List.nodup_range na)).of_append_left.of_append_left
  · exact (hfullB.symm.nodup (List.nodup_range nb)).of_append_left.of_append_left

/-- Witness for C4 at a concrete configuration: two islands covering A-indices
0,1,2 with index 3 externally rejected, and B-indices 1,0 with index 2
rejected. -/
theorem source_pairing_partition_witness :
    (((([⟨[0],[1]⟩, ⟨[1,2],[0]⟩] : List Island).map Island.aIdx).flatten ++
        [3]).Perm (List.range 4)) ∧
    (((([⟨[0],[1]⟩, ⟨[1,2],[0]⟩] : List Island).map Island.bIdx).flatten ++
        [2]).Perm (List.range 3)) ∧
    (((source_pairing_ac (fun _ _ => 1) (fun _ _ => 1) (fun _ => 1) (fun _ => 1)
          [⟨[0],[1]⟩, ⟨[1,2],[0]⟩] ++
        source_pairing_af (fun _ _ => 1) (fun _ _ => 1) (fun _ => 1) (fun _ => 1)
          [⟨[0],[1]⟩, ⟨[1,2],[0]⟩] ++ [3]).Perm (List.range 4)) ∧
      ((source_pairing_bc (fun _ _ => 1) (fun _ _ => 1) (fun _ => 1) (fun _ => 1)
          [⟨[0],[1]⟩, ⟨[1,2],[0]⟩] ++
        source_pairing_bf (fun _ _ => 1) (fun _ _ => 1) (fun _ => 1) (fun _ => 1)
          [⟨[0],[1]⟩, ⟨[1,2],[0]⟩] ++ [2]).Perm (List.range 3)) ∧
      (∀ i, i < 4 → (source_pairing_ac (fun _ _ => 1) (fun _ _ => 1) (fun _ => 1)
          (fun _ => 1) [⟨[0],[1]⟩, ⟨[1,2],[0]⟩] ++
        source_pairing_af (fun _ _ => 1) (fun _ _ => 1) (fun _ => 1) (fun _ => 1)
          [⟨[0],[1]⟩, ⟨[1,2],[0]⟩] ++ [3]).count i = 1) ∧
      (∀ i, i < 3 → (source_pairing_bc (fun _ _ => 1) (fun _ _ => 1) (fun _ => 1)
          (fun _ => 1) [⟨[0],[1]⟩, ⟨[1,2],[0]⟩] ++
        source_pairing_bf (fun _ _ => 1) (fun _ _ => 1) (fun _ => 1) (fun _ => 1)
          [⟨[0],[1]⟩, ⟨[1,2],[0]⟩] ++ [2]).count i = 1) ∧
      (source_pairing_ac (fun _ _ => 1) (fun _ _ => 1) (fun _ => 1) (fun _ => 1)
        [⟨[0],[1]⟩, ⟨[1,2],[0]⟩]).Nodup ∧
      (source_pairing_bc (fun _ _ => 1) (fun _ _ => 1) (fun _ => 1) (fun _ => 1)
        [⟨[0],[1]⟩, ⟨[1,2],[0]⟩]).Nodup) :=
  ⟨by decide, by decide,
    source_pairing_partition (fun _ _ => 1) (fun _ _ => 1) (fun _ => 1) (fun _ => 1)
      [⟨[0],[1]⟩, ⟨[1,2],[0]⟩] [3] [2] 4 3 (by decide) (by decide)⟩

/-- Constant pair-likelihood function used by concrete witnesses. -/
def oneG : Nat → Nat → ℚ := fun _ _ => 1

/-- Constant prior-density function used by concrete witnesses. -/
def onePrior : Nat → ℚ := fun _ => 1

theorem not_mem_other_flatten {F1 F2 X : List Nat} {i : Nat}
    (hnd : (F1 ++ (X ++ F2)).Nodup) (hi : i ∈ X) : i ∉ F1 ++ F2 := by
  intro hmem
  rcases List.mem_append.mp hmem with h1 | h2
  · exact (List.disjoint_of_nodup_append hnd) h1 (List.mem_append.mpr (Or.inl hi))
  · exact (List.disjoint_of_nodup_append hnd.of_append_right) hi h2

/-- C6: removing the island `isl0` before pairing (its sources going to the
external reject lists) leaves every other island's outputs unchanged — the
accumulated arrays of the reduced run are exactly the full run's arrays with
the `isl0` block deleted — reduces the recorded counterpart+field totals on
each side by exactly the rejected counts, and lets no rejected index leak
into any counterpart or field output array. -/
theorem source_pairing_reject_island
    (G Nc : Nat → Nat → ℚ) (Nfa Nfb : Nat → ℚ) (is1 is2 : List Island) (isl0 : Island)
    (aRej bRej : List Nat) (na nb : Nat)
    (hA : (((is1 ++ isl0 :: is2).map Island.aIdx).flatten ++ aRej).Perm (List.range na))
    (hB : (((is1 ++ isl0 :: is2).map Island.bIdx).flatten ++ bRej).Perm (List.range nb)) :
    (source_pairing_ac G Nc Nfa Nfb (is1 ++ isl0 :: is2) =
      source_pairing_ac G Nc Nfa Nfb is1 ++ source_pairing_ac G Nc Nfa Nfb [isl0] ++
        source_pairing_ac G Nc Nfa Nfb is2 ∧
     source_pairing_ac G Nc Nfa Nfb (is1 ++ is2) =
      source_pairing_ac G Nc Nfa Nfb is1 ++ source_pairing_ac G Nc Nfa Nfb is2) ∧
    (source_pairing_af G Nc Nfa Nfb (is1 ++ isl0 :: is2) =
      source_pairing_af G Nc Nfa Nfb is1 ++ source_pairing_af G Nc Nfa Nfb [isl0] ++
        source_pairing_af G Nc Nfa Nfb is2 ∧
     source_pairing_af G Nc Nfa Nfb (is1 ++ is2) =
      source_pairing_af G Nc Nfa Nfb is1 ++ source_pairing_af G Nc Nfa Nfb is2) ∧
    (source_pairing_bc G Nc Nfa Nfb (is1 ++ isl0 :: is2) =
      source_pairing_bc G Nc Nfa Nfb is1 ++ source_pairing_bc G Nc Nfa Nfb [isl0] ++
        source_pairing_bc G Nc Nfa Nfb is2 ∧
     source_pairing_bc G Nc Nfa Nfb (is1 ++ is2) =
      source_pairing_bc G Nc Nfa Nfb is1 ++ source_pairing_bc G Nc Nfa Nfb is2) ∧
    (source_pairing_bf G Nc Nfa Nfb (is1 ++ isl0 :: is2) =
      source_pairing_bf G Nc Nfa Nfb is1 ++ source_pairing_bf G Nc Nfa Nfb [isl0] ++
        source_pairing_bf G Nc Nfa Nfb is2 ∧
     source_pairing_bf G Nc Nfa Nfb (is1 ++ is2) =
      source_pairing_bf G Nc Nfa Nfb is1 ++ source_pairing_bf G Nc Nfa Nfb is2) ∧
    ((source_pairing_ac G Nc Nfa Nfb (is1 ++ is2)).length +
      (source_pairing_af G Nc Nfa Nfb (is1 ++ is2)).length + isl0.aIdx.length =
     (source_pairing_ac G Nc Nfa Nfb (is1 ++ isl0 :: is2)).length +
      (source_pairing_af G Nc Nfa Nfb (is1 ++ isl0 :: is2)).length) ∧
    ((source_pairing_bc G Nc Nfa Nfb (is1 ++ is2)).length +
      (source_pairing_bf G Nc Nfa Nfb (is1 ++ is2)).length + isl0.bIdx.length =
     (source_pairing_bc G Nc Nfa Nfb (is1 ++ isl0 :: is2)).length +
      (source_pairing_bf G Nc Nfa Nfb (is1 ++ isl0 :: is2)).length) ∧
    (∀ i ∈ isl0.aIdx, i ∉ source_pairing_ac G Nc Nfa Nfb (is1 ++ is2) ∧
      i ∉ source_pairing_af G Nc Nfa Nfb (is1 ++ is2)) ∧
    (∀ i ∈ isl0.bIdx, i ∉ source_pairing_bc G Nc Nfa Nfb (is1 ++ is2) ∧
      i ∉ source_pairing_bf G Nc Nfa Nfb (is1 ++ is2)) := by
  have hAnodup : (((is1 ++ isl0 :: is2).map Island.aIdx).flatten ++ aRej).Nodup :=
    hA.symm.nodup (List.nodup_range na)
  have hBnodup : (((is1 ++ isl0 :: is2).map Island.bIdx).flatten ++ bRej).Nodup :=
    hB.symm.nodup (List.nodup_range nb)
  have hmemsub : ∀ isl : Island, isl ∈ is1 ++ is2 → isl ∈ is1 ++ isl0 :: is2 := by
    intro isl hisl
    rcases List.mem_append.mp hisl with h1 | h2
    · exact List.mem_append.mpr (Or.inl h1)
    · exact List.mem_append.mpr (Or.inr (List.mem_cons_of_mem _ h2))
  have hAper : ∀ isl ∈ is1 ++ isl0 :: is2, isl.aIdx.Nodup := by
    intro isl hisl
    exact (List.nodup_flatten.mp hAnodup.of_append_left).1 _
      (List.mem_map_of_mem _ hisl)
  have hBper : ∀ isl ∈ is1 ++ isl0 :: is2, isl.bIdx.Nodup := by
    intro isl hisl
    exact (List.nodup_flatten.mp hBnodup.of_append_left).1 _
      (List.mem_map_of_mem _ hisl)
  have hpermA : (source_pairing_ac G Nc Nfa Nfb (is1 ++ is2) ++
      source_pairing_af G Nc Nfa Nfb (is1 ++ is2)).Perm
      ((is1 ++ is2).map Island.aIdx).flatten :=
    flatten_append_perm (fun isl hisl =>
      (island_partition G Nc Nfa Nfb isl (hAper isl (hmemsub isl hisl))
        (hBper isl (hmemsub isl hisl))).1)
  have hpermB : (source_pairing_bc G Nc Nfa Nfb (is1 ++ is2) ++
      source_pairing_bf G Nc Nfa Nfb (is1 ++ is2)).Perm
      ((is1 ++ is2).map Island.bIdx).flatten :=
    flatten_append_perm (fun isl hisl =>
      (island_partition G Nc Nfa Nfb isl (hAper isl (hmemsub isl hisl))
        (hBper isl (hmemsub isl hisl))).2)
  have hpermAfull : (source_pairing_ac G Nc Nfa Nfb (is1 ++ isl0 :: is2) ++
      source_pairing_af G Nc Nfa Nfb (is1 ++ isl0 :: is2)).Perm
      ((is1 ++ isl0 :: is2).map Island.aIdx).flatten :=
    flatten_append_perm (fun isl hisl =>
      (island_partition G Nc Nfa Nfb isl (hAper isl hisl) (hBper isl hisl)).1)
  have hpermBfull : (source_pairing_bc G Nc Nfa Nfb (is1 ++ isl0 :: is2) ++
      source_pairing_bf G Nc Nfa Nfb (is1 ++ isl0 :: is2)).Perm
      ((is1 ++ isl0 :: is2).map Island.bIdx).flatten :=
    flatten_append_perm (fun isl hisl =>
      (island_partition G Nc Nfa Nfb isl (hAper isl hisl) (hBper isl hisl)).2)
  refine ⟨?_, ?_, ?_, ?_, ?_, ?_, ?_, ?_⟩
  · constructor
    · simp [source_pairing_ac, List.map_append, List.flatten_append]
    · simp [source_pairing_ac, List.map_append, List.flatten_append]
  · constructor
    · simp [source_pairing_af, List.map_append, List.flatten_append]
    · simp [source_pairing_af, List.map_append, List.flatten_append]
  · constructor
    · simp [source_pairing_bc, List.map_append, List.flatten_append]
    · simp [source_pairing_bc, List.map_append, List.flatten_append]
  · constructor
    · simp [source_pairing_bf, List.map_append, List.flatten_append]
    · simp [source_pairing_bf, List.map_append, List.flatten_append]
  · have e1 := hpermA.length_eq
    have e2 := hpermAfull.length_eq
    simp only [List.length_append, List.map_append, List.map_cons,
      List.flatten_append, List.flatten_cons] at e1 e2
    omega
  · have e1 := hpermB.length_eq
    have e2 := hpermBfull.length_eq
    simp only [List.length_append, List.map_append, List.map_cons,
      List.flatten_append, List.flatten_cons] at e1 e2
    omega
  · intro i hi
    have hnd : (((is1.map Island.aIdx).flatten) ++
        (isl0.aIdx ++ (is2.map Island.aIdx).flatten)).Nodup := by
      have := hAnodup.of_append_left
      simpa [List.map_append, List.map_cons, List.flatten_append,
        List.flatten_cons] using this
    have hnomem : i ∉ (is1.map Island.aIdx).flatten ++ (is2.map Island.aIdx).flatten :=
      not_mem_other_flatten hnd hi
    have hfl : ((is1 ++ is2).map Island.aIdx).flatten =
        (is1.map Island.aIdx).flatten ++ (is2.map Island.aIdx).flatten := by
      simp [List.map_append, List.flatten_append]
    constructor
    · intro hmem
      exact hnomem (hfl ▸ (hpermA.subset (List.mem_append.mpr (Or.inl hmem))))
    · intro hmem
      exact hnomem (hfl ▸ (hpermA.subset (List.mem_append.mpr (Or.inr hmem))))
  · intro i hi
    have hnd : (((is1.map Island.bIdx).flatten) ++
        (isl0.bIdx ++ (is2.map Island.bIdx).flatten)).Nodup := by
      have := hBnodup.of_append_left
      simpa [List.map_append, List.map_cons, List.flatten_append,
        List.flatten_cons] using this
    have hnomem : i ∉ (is1.map Island.bIdx).flatten ++ (is2.map Island.bIdx).flatten :=
      not_mem_other_flatten hnd hi
    have hfl : ((is1 ++ is2).map Island.bIdx).flatten =
        (is1.map Island.bIdx).flatten ++ (is2.map Island.bIdx).flatten := by
      simp [List.map_append, List.flatten_append]
    constructor
    · intro hmem
      exact hnomem (hfl ▸ (hpermB.subset (List.mem_append.mpr (Or.inl hmem))))
    · intro hmem
      exact hnomem (hfl ▸ (hpermB.subset (List.mem_append.mpr (Or.inr hmem))))

/-- Concrete island configuration exercising C6: islands before the
rejected one. -/
def c6is1 : List Island := [⟨[0],[1]⟩]

/-- Concrete island configuration exercising C6: the island rejected
upstream. -/
def c6isl0 : Island := ⟨[1,2],[0]⟩

/-- Concrete island configuration exercising C6: islands after the rejected
one. -/
def c6is2 : List Island := [⟨[3],[2]⟩]

/-- Witness for C6 at a concrete configuration: the middle island holding
A-indices 1,2 and B-index 0 is removed; the totals drop by its counts and
its indices appear in no output of the reduced run. -/
theorem source_pairing_reject_island_witness :
    (((c6is1 ++ c6isl0 :: c6is2).map Island.aIdx).flatten ++
        ([] : List Nat)).Perm (List.range 4) ∧
    (((c6is1 ++ c6isl0 :: c6is2).map Island.bIdx).flatten ++
        ([] : List Nat)).Perm (List.range 3) ∧
    ((source_pairing_ac oneG oneG onePrior onePrior (c6is1 ++ c6is2)).length +
      (source_pairing_af oneG oneG onePrior onePrior (c6is1 ++ c6is2)).length +
      c6isl0.aIdx.length =
     (source_pairing_ac oneG oneG onePrior onePrior (c6is1 ++ c6isl0 :: c6is2)).length +
      (source_pairing_af oneG oneG onePrior onePrior (c6is1 ++ c6isl0 :: c6is2)).length) ∧
    (∀ i ∈ c6isl0.aIdx,
      i ∉ source_pairing_ac oneG oneG onePrior onePrior (c6is1 ++ c6is2) ∧
      i ∉ source_pairing_af oneG oneG onePrior onePrior (c6is1 ++ c6is2)) := by
  have h := source_pairing_reject_island oneG oneG onePrior onePrior
    c6is1 c6is2 c6isl0 [] [] 4 3 (by decide) (by decide)
  exact ⟨by decide, by decide, h.2.2.2.2.1, h.2.2.2.2.2.2.1⟩

theorem flatten_chunk_map {α : Type} (f : Island → List α) (chunks : List (List Island)) :
    (chunks.map (fun c => (c.map f).flatten)).flatten = (chunks.flatten.map f).flatten := by
  induction chunks with
  | nil => rfl
  | cons c t ih => simp [List.map_append, List.flatten_append, ih]

theorem chunked_ac_eq (G Nc : Nat → Nat → ℚ) (Nfa Nfb : Nat → ℚ)
    (chunks : List (List Island)) :
    chunked_ac G Nc Nfa Nfb chunks = source_pairing_ac G Nc Nfa Nfb chunks.flatten := by
  simp only [chunked_ac, source_pairing_ac]
  exact flatten_chunk_map _ chunks

theorem chunked_bc_eq (G Nc : Nat → Nat → ℚ) (Nfa Nfb : Nat → ℚ)
    (chunks : List (List Island)) :
    chunked_bc G Nc Nfa Nfb chunks = source_pairing_bc G Nc Nfa Nfb chunks.flatten := by
  simp only [chunked_bc, source_pairing_bc]
  exact flatten_chunk_map _ chunks

theorem chunked_af_eq (G Nc : Nat → Nat → ℚ) (Nfa Nfb : Nat → ℚ)
    (chunks : List (List Island)) :
    chunked_af G Nc Nfa Nfb chunks = source_pairing_af G Nc Nfa Nfb chunks.flatten := by
  simp only [chunked_af, source_pairing_af]
  exact flatten_chunk_map _ chunks

theorem chunked_bf_eq (G Nc : Nat → Nat → ℚ) (Nfa Nfb : Nat → ℚ)
    (chunks : List (List Island)) :
    chunked_bf G Nc Nfa Nfb chunks = source_pairing_bf G Nc Nfa Nfb chunks.flatten := by
  simp only [chunked_bf, source_pairing_bf]
  exact flatten_chunk_map _ chunks

/-- C9: the resolver is deterministic.  The model resolver is a pure function
of its inputs, so two runs over the same catalogues, islands and priors give
equal outputs whatever chunk decomposition the scheduler uses: every chunked
run reproduces the direct run, and any two chunked runs agree on all four
output arrays. -/
theorem source_pairing_deterministic
    (G Nc : Nat → Nat → ℚ) (Nfa Nfb : Nat → ℚ) (islands : List Island)
    (chunks1 chunks2 : List (List Island))
    (h1 : chunks1.flatten = islands) (h2 : chunks2.flatten = islands) :
    (chunked_ac G Nc Nfa Nfb chunks1 = source_pairing_ac G Nc Nfa Nfb islands ∧
      chunked_ac G Nc Nfa Nfb chunks2 = chunked_ac G Nc Nfa Nfb chunks1) ∧
    (chunked_bc G Nc Nfa Nfb chunks1 = source_pairing_bc G Nc Nfa Nfb islands ∧
      chunked_bc G Nc Nfa Nfb chunks2 = chunked_bc G Nc Nfa Nfb chunks1) ∧
    (chunked_af G Nc Nfa Nfb chunks1 = source_pairing_af G Nc Nfa Nfb islands ∧
      chunked_af G Nc Nfa Nfb chunks2 = chunked_af G Nc Nfa Nfb chunks1) ∧
    (chunked_bf G Nc Nfa Nfb chunks1 = source_pairing_bf G Nc Nfa Nfb islands ∧
      chunked_bf G Nc Nfa Nfb chunks2 = chunked_bf G Nc Nfa Nfb chunks1) := by
  have hac1 := chunked_ac_eq G Nc Nfa Nfb chunks1
  have hac2 := chunked_ac_eq G Nc Nfa Nfb chunks2
  have hbc1 := chunked_bc_eq G Nc Nfa Nfb chunks1
  have hbc2 := chunked_bc_eq G Nc Nfa Nfb chunks2
  have haf1 := chunked_af_eq G Nc Nfa Nfb chunks1
  have haf2 := chunked_af_eq G Nc Nfa Nfb chunks2
  have hbf1 := chunked_bf_eq G Nc Nfa Nfb chunks1
  have hbf2 := chunked_bf_eq G Nc Nfa Nfb chunks2
  rw [h1] at hac1 hbc1 haf1 hbf1
  rw [h2] at hac2 hbc2 haf2 hbf2
  exact ⟨⟨hac1, hac2.trans hac1.symm⟩, ⟨hbc1, hbc2.trans hbc1.symm⟩,
    ⟨haf1, haf2.trans haf1.symm⟩, ⟨hbf1, hbf2.trans hbf1.symm⟩⟩

/-- Witness for C9: a two-island list processed as two singleton chunks and
as one two-island chunk gives the same outputs as the direct run. -/
theorem source_pairing_deterministic_witness :
    ([[(⟨[0],[1]⟩ : Island)], [⟨[1,2],[0]⟩]] : List (List Island)).flatten =
      ([⟨[0],[1]⟩, ⟨[1,2],[0]⟩] : List Island) ∧
    ([[(⟨[0],[1]⟩ : Island), ⟨[1,2],[0]⟩]] : List (List Island)).flatten =
      ([⟨[0],[1]⟩, ⟨[1,2],[0]⟩] : List Island) ∧
    ((chunked_ac oneG oneG onePrior onePrior [[⟨[0],[1]⟩], [⟨[1,2],[0]⟩]] =
        source_pairing_ac oneG oneG onePrior onePrior [⟨[0],[1]⟩, ⟨[1,2],[0]⟩] ∧
      chunked_ac oneG oneG onePrior onePrior [[⟨[0],[1]⟩, ⟨[1,2],[0]⟩]] =
        chunked_ac oneG oneG onePrior onePrior [[⟨[0],[1]⟩], [⟨[1,2],[0]⟩]]) ∧
    (chunked_bc oneG oneG onePrior onePrior [[⟨[0],[1]⟩], [⟨[1,2],[0]⟩]] =
        source_pairing_bc oneG oneG onePrior onePrior [⟨[0],[1]⟩, ⟨[1,2],[0]⟩] ∧
      chunked_bc oneG oneG onePrior onePrior [[⟨[0],[1]⟩, ⟨[1,2],[0]⟩]] =
        chunked_bc oneG oneG onePrior onePrior [[⟨[0],[1]⟩], [⟨[1,2],[0]⟩]]) ∧
    (chunked_af oneG oneG onePrior onePrior [[⟨[0],[1]⟩], [⟨[1,2],[0]⟩]] =
        source_pairing_af oneG oneG onePrior onePrior [⟨[0],[1]⟩, ⟨[1,2],[0]⟩] ∧
      chunked_af oneG oneG onePrior onePrior [[⟨[0],[1]⟩, ⟨[1,2],[0]⟩]] =
        chunked_af oneG oneG onePrior onePrior [[⟨[0],[1]⟩], [⟨[1,2],[0]⟩]]) ∧
    (chunked_bf oneG oneG onePrior onePrior [[⟨[0],[1]⟩], [⟨[1,2],[0]⟩]] =
        source_pairing_bf oneG oneG onePrior onePrior [⟨[0],[1]⟩, ⟨[1,2],[0]⟩] ∧
      chunked_bf oneG oneG onePrior onePrior [[⟨[0],[1]⟩, ⟨[1,2],[0]⟩]] =
        chunked_bf oneG oneG onePrior onePrior [[⟨[0],[1]⟩], [⟨[1,2],[0]⟩]])) :=
  ⟨rfl, rfl,
    source_pairing_deterministic oneG oneG onePrior onePrior
      [⟨[0],[1]⟩, ⟨[1,2],[0]⟩] [[⟨[0],[1]⟩], [⟨[1,2],[0]⟩]]
      [[⟨[0],[1]⟩, ⟨[1,2],[0]⟩]] rfl rfl⟩

theorem iip_fields (G Nc : Nat → Nat → ℚ) (Nfa Nfb : Nat → ℚ) (isl : Island) :
    individual_island_probability G Nc Nfa Nfb isl =
      { crpts := argmaxBy (hypScore G Nc Nfa Nfb isl.aIdx isl.bIdx)
          (enumHyps isl.aIdx isl.bIdx)
        afield := unpairedA (argmaxBy (hypScore G Nc Nfa Nfb isl.aIdx isl.bIdx)
          (enumHyps isl.aIdx isl.bIdx)) isl.aIdx
        bfield := unpairedB (argmaxBy (hypScore G Nc Nfa Nfb isl.aIdx isl.bIdx)
          (enumHyps isl.aIdx isl.bIdx)) isl.bIdx
        prob := hypScore G Nc Nfa Nfb isl.aIdx isl.bIdx
          (argmaxBy (hypScore G Nc Nfa Nfb isl.aIdx isl.bIdx)
            (enumHyps isl.aIdx isl.bIdx))
        integral := ((enumHyps isl.aIdx isl.bIdx).map
          (hypScore G Nc Nfa Nfb isl.aIdx isl.bIdx)).sum
        posterior := if ((enumHyps isl.aIdx isl.bIdx).map
            (hypScore G Nc Nfa Nfb isl.aIdx isl.bIdx)).sum = 0 then 1
          else hypScore G Nc Nfa Nfb isl.aIdx isl.bIdx
            (argmaxBy (hypScore G Nc Nfa Nfb isl.aIdx isl.bIdx)
              (enumHyps isl.aIdx isl.bIdx)) /
            ((enumHyps isl.aIdx isl.bIdx).map
              (hypScore G Nc Nfa Nfb isl.aIdx isl.bIdx)).sum } := rfl

theorem hypScore_zero_priors (G : Nat → Nat → ℚ) (a : Nat) (as bIdx : List Nat)
    (h : Pairing) :
    hypScore G (fun _ _ => 0) (fun _ => 0) (fun _ => 0) (a :: as) bIdx h = 0 := by
  cases h with
  | nil => simp [hypScore, pairedScore, unpairedA, unpairedB]
  | cons p t => simp [hypScore, pairedScore]

/-- C3: if every prior density entering an island's hypotheses is exactly
zero, the normalising integral is zero, and the resolver, rather than
dividing by zero, still returns a result in which the selected hypothesis is
assigned posterior probability one. -/
theorem individual_island_probability_zero_priors
    (G : Nat → Nat → ℚ) (isl : Island) (hne : isl.aIdx ≠ []) :
    (individual_island_probability G (fun _ _ => 0) (fun _ => 0) (fun _ => 0)
      isl).integral = 0 ∧
    (individual_island_probability G (fun _ _ => 0) (fun _ => 0) (fun _ => 0)
      isl).posterior = 1 := by
  obtain ⟨a, as, ha⟩ := List.exists_cons_of_ne_nil hne
  have hz : ((enumHyps isl.aIdx isl.bIdx).map
      (hypScore G (fun _ _ => 0) (fun _ => 0) (fun _ => 0) isl.aIdx isl.bIdx)).sum = 0 := by
    apply List.sum_eq_zero
    intro x hx
    obtain ⟨h, _, rfl⟩ := List.mem_map.mp hx
    rw [ha]
    exact hypScore_zero_priors G a as isl.bIdx h
  refine ⟨hz, ?_⟩
  have hpost : (individual_island_probability G (fun _ _ => 0) (fun _ => 0)
      (fun _ => 0) isl).posterior =
      if ((enumHyps isl.aIdx isl.bIdx).map
          (hypScore G (fun _ _ => 0) (fun _ => 0) (fun _ => 0) isl.aIdx isl.bIdx)).sum = 0
      then 1
      else hypScore G (fun _ _ => 0) (fun _ => 0) (fun _ => 0) isl.aIdx isl.bIdx
          (argmaxBy (hypScore G (fun _ _ => 0) (fun _ => 0) (fun _ => 0) isl.aIdx isl.bIdx)
            (enumHyps isl.aIdx isl.bIdx)) /
        ((enumHyps isl.aIdx isl.bIdx).map
          (hypScore G (fun _ _ => 0) (fun _ => 0) (fun _ => 0) isl.aIdx isl.bIdx)).sum := rfl
  rw [hpost, if_pos hz]

/-- Witness for C3: a one-A-source, one-B-source island with all prior
densities zero yields integral zero and posterior one. -/
theorem individual_island_probability_zero_priors_witness :
    ((⟨[0],[1]⟩ : Island).aIdx ≠ []) ∧
    ((individual_island_probability oneG (fun _ _ => 0) (fun _ => 0) (fun _ => 0)
      ⟨[0],[1]⟩).integral = 0 ∧
    (individual_island_probability oneG (fun _ _ => 0) (fun _ => 0) (fun _ => 0)
      ⟨[0],[1]⟩).posterior = 1) :=
  ⟨by decide, individual_island_probability_zero_priors oneG ⟨[0],[1]⟩ (by decide)⟩

/-- C1: for an island holding one source in one catalogue and two candidates
in the other (indices 0 and 1 against candidate 10; the candidate of source
0 the closer, so with the larger astrometric likelihood `Gc`, the other
`Gf`), with equal non-zero priors throughout, the resolver scores the three
hypotheses as counterpart x field products, sums them into the normalising
integral, selects the closer-candidate hypothesis as the maximum, and
assigns it posterior `Nc*Gc*Nfa / (Nc*Gc*Nfa + Nc*Gf*Nfa + Nfa*Nfa*Nfb)`. -/
theorem individual_island_probability_selects_closer
    (Gc Gf Nc Nfa Nfb : ℚ) (hNc : 0 < Nc) (hNfa : 0 < Nfa) (hNfb : 0 < Nfb)
    (hGf : 0 < Gf) (hG : Gf < Gc) (hmax : Nfa * Nfb < Nc * Gc) :
    (individual_island_probability (fun a _ => if a = 0 then Gc else Gf)
        (fun _ _ => Nc) (fun _ => Nfa) (fun _ => Nfb) ⟨[0,1],[10]⟩).crpts = [(0,10)] ∧
    (individual_island_probability (fun a _ => if a = 0 then Gc else Gf)
        (fun _ _ => Nc) (fun _ => Nfa) (fun _ => Nfb) ⟨[0,1],[10]⟩).afield = [1] ∧
    (individual_island_probability (fun a _ => if a = 0 then Gc else Gf)
        (fun _ _ => Nc) (fun _ => Nfa) (fun _ => Nfb) ⟨[0,1],[10]⟩).bfield = [] ∧
    (individual_island_probability (fun a _ => if a = 0 then Gc else Gf)
        (fun _ _ => Nc) (fun _ => Nfa) (fun _ => Nfb) ⟨[0,1],[10]⟩).prob =
      Nc * Gc * Nfa ∧
    (individual_island_probability (fun a _ => if a = 0 then Gc else Gf)
        (fun _ _ => Nc) (fun _ => Nfa) (fun _ => Nfb) ⟨[0,1],[10]⟩).integral =
      Nc * Gc * Nfa + Nc * Gf * Nfa + Nfa * Nfa * Nfb ∧
    (individual_island_probability (fun a _ => if a = 0 then Gc else Gf)
        (fun _ _ => Nc) (fun _ => Nfa) (fun _ => Nfb) ⟨[0,1],[10]⟩).posterior =
      Nc * Gc * Nfa / (Nc * Gc * Nfa + Nc * Gf * Nfa + Nfa * Nfa * Nfb) := by
  have hGc : 0 < Gc := hGf.trans hG
  have hhyps : enumHyps [0,1] [10] = [[], [(1,10)], [(0,10)]] := rfl
  have e0 : hypScore (fun a _ => if a = 0 then Gc else Gf)
      (fun _ _ => Nc) (fun _ => Nfa) (fun _ => Nfb) [0,1] [10] [] =
      Nfa * Nfa * Nfb := by
    conv_lhs => simp [hypScore, pairedScore, unpairedA, unpairedB]
    try ring
  have e1 : hypScore (fun a _ => if a = 0 then Gc else Gf)
      (fun _ _ => Nc) (fun _ => Nfa) (fun _ => Nfb) [0,1] [10] [(1,10)] =
      Nc * Gf * Nfa := by
    conv_lhs => simp [hypScore, pairedScore, unpairedA, unpairedB]
    ring
  have e2 : hypScore (fun a _ => if a = 0 then Gc else Gf)
      (fun _ _ => Nc) (fun _ => Nfa) (fun _ => Nfb) [0,1] [10] [(0,10)] =
      Nc * Gc * Nfa := by
    conv_lhs => simp [hypScore, pairedScore, unpairedA, unpairedB]
    ring
  have h02 : hypScore (fun a _ => if a = 0 then Gc else Gf)
      (fun _ _ => Nc) (fun _ => Nfa) (fun _ => Nfb) [0,1] [10] [] <
      hypScore (fun a _ => if a = 0 then Gc else Gf)
      (fun _ _ => Nc) (fun _ => Nfa) (fun _ => Nfb) [0,1] [10] [(0,10)] := by
    rw [e0, e2]
    nlinarith [mul_lt_mul_of_pos_right hmax hNfa]
  have h12 : hypScore (fun a _ => if a = 0 then Gc else Gf)
      (fun _ _ => Nc) (fun _ => Nfa) (fun _ => Nfb) [0,1] [10] [(1,10)] <
      hypScore (fun a _ => if a = 0 then Gc else Gf)
      (fun _ _ => Nc) (fun _ => Nfa) (fun _ => Nfb) [0,1] [10] [(0,10)] := by
    rw [e1, e2]
    nlinarith [mul_lt_mul_of_pos_left hG (mul_pos hNc hNfa)]
  have hbest : argmaxBy (hypScore (fun a _ => if a = 0 then Gc else Gf)
      (fun _ _ => Nc) (fun _ => Nfa) (fun _ => Nfb) [0,1] [10])
      (enumHyps [0,1] [10]) = [(0,10)] := by
    rw [hhyps]
    simp only [argmaxBy, List.foldl_cons, List.foldl_nil]
    by_cases h01 : hypScore (fun a _ => if a = 0 then Gc else Gf)
        (fun _ _ => Nc) (fun _ => Nfa) (fun _ => Nfb) [0,1] [10] [] <
        hypScore (fun a _ => if a = 0 then Gc else Gf)
        (fun _ _ => Nc) (fun _ => Nfa) (fun _ => Nfb) [0,1] [10] [(1,10)]
    · rw [if_pos h01, if_pos h12]
    · rw [if_neg h01, if_pos h02]
  have hzsum : ((enumHyps [0,1] [10]).map (hypScore (fun a _ => if a = 0 then Gc else Gf)
      (fun _ _ => Nc) (fun _ => Nfa) (fun _ => Nfb) [0,1] [10])).sum =
      Nc * Gc * Nfa + Nc * Gf * Nfa + Nfa * Nfa * Nfb := by
    rw [hhyps]
    simp only [List.map_cons, List.map_nil, List.sum_cons, List.sum_nil]
    rw [e0, e1, e2]
    ring
  have hzne : ((enumHyps [0,1] [10]).map (hypScore (fun a _ => if a = 0 then Gc else Gf)
      (fun _ _ => Nc) (fun _ => Nfa) (fun _ => Nfb) [0,1] [10])).sum ≠ 0 := by
    rw [hzsum]
    have hp : (0:ℚ) < Nc * Gc * Nfa + Nc * Gf * Nfa + Nfa * Nfa * Nfb := by positivity
    exact ne_of_gt hp
  refine ⟨hbest, ?_, ?_, ?_, hzsum, ?_⟩
  · have hfld : (individual_island_probability (fun a _ => if a = 0 then Gc else Gf)
        (fun _ _ => Nc) (fun _ => Nfa) (fun _ => Nfb) ⟨[0,1],[10]⟩).afield =
        unpairedA (argmaxBy (hypScore (fun a _ => if a = 0 then Gc else Gf)
          (fun _ _ => Nc) (fun _ => Nfa) (fun _ => Nfb) [0,1] [10])
          (enumHyps [0,1] [10])) [0,1] := rfl
    rw [hfld, hbest]
    decide
  · have hfld : (individual_island_probability (fun a _ => if a = 0 then Gc else Gf)
        (fun _ _ => Nc) (fun _ => Nfa) (fun _ => Nfb) ⟨[0,1],[10]⟩).bfield =
        unpairedB (argmaxBy (hypScore (fun a _ => if a = 0 then Gc else Gf)
          (fun _ _ => Nc) (fun _ => Nfa) (fun _ => Nfb) [0,1] [10])
          (enumHyps [0,1] [10])) [10] := rfl
    rw [hfld, hbest]
    decide
  · have hfld : (individual_island_probability (fun a _ => if a = 0 then Gc else Gf)
        (fun _ _ => Nc) (fun _ => Nfa) (fun _ => Nfb) ⟨[0,1],[10]⟩).prob =
        hypScore (fun a _ => if a = 0 then Gc else Gf)
          (fun _ _ => Nc) (fun _ => Nfa) (fun _ => Nfb) [0,1] [10]
          (argmaxBy (hypScore (fun a _ => if a = 0 then Gc else Gf)
            (fun _ _ => Nc) (fun _ => Nfa) (fun _ => Nfb) [0,1] [10])
            (enumHyps [0,1] [10])) := rfl
    rw [hfld, hbest, e2]
  · have hfld : (individual_island_probability (fun a _ => if a = 0 then Gc else Gf)
        (fun _ _ => Nc) (fun _ => Nfa) (fun _ => Nfb) ⟨[0,1],[10]⟩).posterior =
        if ((enumHyps [0,1] [10]).map (hypScore (fun a _ => if a = 0 then Gc else Gf)
            (fun _ _ => Nc) (fun _ => Nfa) (fun _ => Nfb) [0,1] [10])).sum = 0 then 1
        else hypScore (fun a _ => if a = 0 then Gc else Gf)
            (fun _ _ => Nc) (fun _ => Nfa) (fun _ => Nfb) [0,1] [10]
            (argmaxBy (hypScore (fun a _ => if a = 0 then Gc else Gf)
              (fun _ _ => Nc) (fun _ => Nfa) (fun _ => Nfb) [0,1] [10])
              (enumHyps [0,1] [10])) /
          ((enumHyps [0,1] [10]).map (hypScore (fun a _ => if a = 0 then Gc else Gf)
            (fun _ _ => Nc) (fun _ => Nfa) (fun _ => Nfb) [0,1] [10])).sum := rfl
    rw [hfld, if_neg hzne, hbest, e2, hzsum]

/-- Witness for C1 at concrete priors and likelihoods: `Gc = 3`, `Gf = 1`,
`Nc = 2`, `Nfa = Nfb = 1`; the closer candidate is selected with posterior
6/9. -/
theorem individual_island_probability_selects_closer_witness :
    ((0:ℚ) < 2 ∧ (0:ℚ) < 1 ∧ (0:ℚ) < 1 ∧ (0:ℚ) < 1 ∧ (1:ℚ) < 3 ∧
      (1:ℚ) * 1 < 2 * 3) ∧
    ((individual_island_probability (fun a _ => if a = 0 then (3:ℚ) else 1)
        (fun _ _ => 2) (fun _ => 1) (fun _ => 1) ⟨[0,1],[10]⟩).crpts = [(0,10)] ∧
    (individual_island_probability (fun a _ => if a = 0 then (3:ℚ) else 1)
        (fun _ _ => 2) (fun _ => 1) (fun _ => 1) ⟨[0,1],[10]⟩).afield = [1] ∧
    (individual_island_probability (fun a _ => if a = 0 then (3:ℚ) else 1)
        (fun _ _ => 2) (fun _ => 1) (fun _ => 1) ⟨[0,1],[10]⟩).bfield = [] ∧
    (individual_island_probability (fun a _ => if a = 0 then (3:ℚ) else 1)
        (fun _ _ => 2) (fun _ => 1) (fun _ => 1) ⟨[0,1],[10]⟩).prob = 2 * 3 * 1 ∧
    (individual_island_probability (fun a _ => if a = 0 then (3:ℚ) else 1)
        (fun _ _ => 2) (fun _ => 1) (fun _ => 1) ⟨[0,1],[10]⟩).integral =
      2 * 3 * 1 + 2 * 1 * 1 + 1 * 1 * 1 ∧
    (individual_island_probability (fun a _ => if a = 0 then (3:ℚ) else 1)
        (fun _ _ => 2) (fun _ => 1) (fun _ => 1) ⟨[0,1],[10]⟩).posterior =
      2 * 3 * 1 / (2 * 3 * 1 + 2 * 1 * 1 + 1 * 1 * 1)) :=
  ⟨⟨by norm_num, by norm_num, by norm_num, by norm_num, by norm_num, by norm_num⟩,
    individual_island_probability_selects_closer 3 1 2 1 1 (by norm_num) (by norm_num)
      (by norm_num) (by norm_num) (by norm_num) (by norm_num)⟩

/-- C5: when the reconciliation pass finds that the recorded
counterpart+field+rejected indices number fewer than catalogue a's source
count and more than catalogue b's, the run emits exactly one warning per
affected side carrying the exact count and direction of the discrepancy,
and still returns the computed output arrays rather than aborting. -/
theorem source_pairing_length_warnings
    (G Nc : Nat → Nat → ℚ) (Nfa Nfb : Nat → ℚ) (islands : List Island)
    (aRej bRej : List Nat) (na nb : Nat)
    (hA : (source_pairing_ac G Nc Nfa Nfb islands).length +
      (source_pairing_af G Nc Nfa Nfb islands).length + aRej.length < na)
    (hB : nb < (source_pairing_bc G Nc Nfa Nfb islands).length +
      (source_pairing_bf G Nc Nfa Nfb islands).length + bRej.length) :
    (source_pairing G Nc Nfa Nfb islands aRej bRej na nb).warnings =
      [⟨CatSide.a, WarnDir.tooFew,
          na - ((source_pairing_ac G Nc Nfa Nfb islands).length +
            (source_pairing_af G Nc Nfa Nfb islands).length + aRej.length)⟩,
        ⟨CatSide.b, WarnDir.tooMany,
          (source_pairing_bc G Nc Nfa Nfb islands).length +
            (source_pairing_bf G Nc Nfa Nfb islands).length + bRej.length - nb⟩] ∧
    (source_pairing G Nc Nfa Nfb islands aRej bRej na nb).ac =
      source_pairing_ac G Nc Nfa Nfb islands ∧
    (source_pairing G Nc Nfa Nfb islands aRej bRej na nb).af =
      source_pairing_af G Nc Nfa Nfb islands ∧
    (source_pairing G Nc Nfa Nfb islands aRej bRej na nb).bc =
      source_pairing_bc G Nc Nfa Nfb islands ∧
    (source_pairing G Nc Nfa Nfb islands aRej bRej na nb).bf =
      source_pairing_bf G Nc Nfa Nfb islands := by
  have hBnot : ¬ ((source_pairing_bc G Nc Nfa Nfb islands).length +
      (source_pairing_bf G Nc Nfa Nfb islands).length + bRej.length < nb) := by
    omega
  refine ⟨?_, rfl, rfl, rfl, rfl⟩
  show reconcile_warnings
      ((source_pairing_ac G Nc Nfa Nfb islands).length +
        (source_pairing_af G Nc Nfa Nfb islands).length + aRej.length) na
      ((source_pairing_bc G Nc Nfa Nfb islands).length +
        (source_pairing_bf G Nc Nfa Nfb islands).length + bRej.length) nb = _
  rw [reconcile_warnings, if_pos hA, if_neg hBnot, if_pos hB]
  rfl

/-- Witness for C5: an empty island list against a one-source catalogue a
(one source unaccounted: too few) and a one-source catalogue b with two
rejected indices (one extra recorded: too many). -/
theorem source_pairing_length_warnings_witness :
    ((source_pairing_ac oneG oneG onePrior onePrior []).length +
      (source_pairing_af oneG oneG onePrior onePrior []).length +
      ([] : List Nat).length < 1) ∧
    (1 < (source_pairing_bc oneG oneG onePrior onePrior []).length +
      (source_pairing_bf oneG oneG onePrior onePrior []).length +
      ([0, 1] : List Nat).length) ∧
    ((source_pairing oneG oneG onePrior onePrior [] [] [0, 1] 1 1).warnings =
      [⟨CatSide.a, WarnDir.tooFew,
          1 - ((source_pairing_ac oneG oneG onePrior onePrior []).length +
            (source_pairing_af oneG oneG onePrior onePrior []).length +
            ([] : List Nat).length)⟩,
        ⟨CatSide.b, WarnDir.tooMany,
          (source_pairing_bc oneG oneG onePrior onePrior []).length +
            (source_pairing_bf oneG oneG onePrior onePrior []).length +
            ([0, 1] : List Nat).length - 1⟩] ∧
      (source_pairing oneG oneG onePrior onePrior [] [] [0, 1] 1 1).ac =
        source_pairing_ac oneG oneG onePrior onePrior [] ∧
      (source_pairing oneG oneG onePrior onePrior [] [] [0, 1] 1 1).af =
        source_pairing_af oneG oneG onePrior onePrior [] ∧
      (source_pairing oneG oneG onePrior onePrior [] [] [0, 1] 1 1).bc =
        source_pairing_bc oneG oneG onePrior onePrior [] ∧
      (source_pairing oneG oneG onePrior onePrior [] [] [0, 1] 1 1).bf =
        source_pairing_bf oneG oneG onePrior onePrior []) :=
  ⟨by decide, by decide,
    source_pairing_length_warnings oneG oneG onePrior onePrior [] [] [0, 1] 1 1
      (by decide) (by decide)⟩

/-- C7: configuration faults of `make_perturb_aufs` are fatal and raised
before any processing: with `include_perturb_auf` on, leaving any one of the
required parameters unset (here each of `tri_filt_names`, `delta_mag_cuts`,
`psf_fwhms`, `num_trials`, `j0s`, `density_mags`, `d_mag`, and the
`fit_gal_flag`-dependent parameters) makes the validation block fail with a
message naming that parameter; and whenever validation fails, the function
returns that error without consulting the catalogue data at all. -/
theorem make_perturb_aufs_missing_parameter :
    (make_perturb_aufs_checks { fullPerturbConfig with tri_filt_names := none } =
      some "tri_filt_names must be given if include_perturb_auf is True.") ∧
    (make_perturb_aufs_checks { fullPerturbConfig with delta_mag_cuts := none } =
      some "delta_mag_cuts must be given if include_perturb_auf is True.") ∧
    (make_perturb_aufs_checks { fullPerturbConfig with psf_fwhms := none } =
      some "psf_fwhms must be given if include_perturb_auf is True.") ∧
    (make_perturb_aufs_checks { fullPerturbConfig with num_trials := none } =
      some "num_trials must be given if include_perturb_auf is True.") ∧
    (make_perturb_aufs_checks { fullPerturbConfig with j0s := none } =
      some "j0s must be given if include_perturb_auf is True.") ∧
    (make_perturb_aufs_checks { fullPerturbConfig with density_mags := none } =
      some "density_mags must be given if include_perturb_auf is True.") ∧
    (make_perturb_aufs_checks { fullPerturbConfig with d_mag := none } =
      some "d_mag must be given if include_perturb_auf is True.") ∧
    (make_perturb_aufs_checks { fullPerturbConfig with run_fw := none } =
      some "run_fw must be given if include_perturb_auf is True.") ∧
    (make_perturb_aufs_checks { fullPerturbConfig with run_psf := none } =
      some "run_psf must be given if include_perturb_auf is True.") ∧
    (make_perturb_aufs_checks { fullPerturbConfig with dd_params := none } =
      some "dd_params must be given if include_perturb_auf and run_psf are True.") ∧
    (make_perturb_aufs_checks { fullPerturbConfig with l_cut := none } =
      some "l_cut must be given if include_perturb_auf and run_psf are True.") ∧
    (make_perturb_aufs_checks { fullPerturbConfig with mag_h_params := none } =
      some "mag_h_params must be given if include_perturb_auf is True.") ∧
    (make_perturb_aufs_checks { fullPerturbConfig with compute_local_density := none } =
      some "compute_local_density must be given if include_perturb_auf is True.") ∧
    (make_perturb_aufs_checks { fullPerturbConfig with density_radius := none } =
      some "density_radius must be given if include_perturb_auf and compute_local_density are both True.") ∧
    (make_perturb_aufs_checks { fullPerturbConfig with fit_gal_flag := none } =
      some "fit_gal_flag must not be None if include_perturb_auf is True.") ∧
    (make_perturb_aufs_checks { fullPerturbConfig with cmau_array := none } =
      some "cmau_array must be given if fit_gal_flag is True.") ∧
    (make_perturb_aufs_checks { fullPerturbConfig with wavs := none } =
      some "wavs must be given if fit_gal_flag is True.") ∧
    (make_perturb_aufs_checks { fullPerturbConfig with z_maxs := none } =
      some "z_maxs must be given if fit_gal_flag is True.") ∧
    (make_perturb_aufs_checks { fullPerturbConfig with nzs := none } =
      some "nzs must be given if fit_gal_flag is True.") ∧
    (make_perturb_aufs_checks { fullPerturbConfig with ab_offsets := none } =
      some "ab_offsets must be given if fit_gal_flag is True.") ∧
    (make_perturb_aufs_checks { fullPerturbConfig with filter_names := none } =
      some "filter_names must be given if fit_gal_flag is True.") ∧
    (make_perturb_aufs_checks { fullPerturbConfig with al_avs := none } =
      some "al_avs must be given if fit_gal_flag is True.") ∧
    (make_perturb_aufs_checks { fullPerturbConfig with alpha0 := none } =
      some "alpha0 must be given if fit_gal_flag is True.") ∧
    (make_perturb_aufs_checks { fullPerturbConfig with alpha1 := none } =
      some "alpha1 must be given if fit_gal_flag is True.") ∧
    (make_perturb_aufs_checks { fullPerturbConfig with alpha_weight := none } =
      some "alpha_weight must be given if fit_gal_flag is True.") ∧
    (∀ (c : PerturbConfig) (msg : String) (process : List ℚ → List ℚ)
        (cat1 cat2 : List ℚ), make_perturb_aufs_checks c = some msg →
      make_perturb_aufs process c cat1 = Except.error msg ∧
      make_perturb_aufs process c cat1 = make_perturb_aufs process c cat2) := by
  refine ⟨rfl, rfl, rfl, rfl, rfl, rfl, rfl, rfl, rfl, rfl, rfl, rfl, rfl, rfl, rfl,
    rfl, rfl, rfl, rfl, rfl, rfl, rfl, rfl, rfl, rfl, ?_⟩
  intro c msg process cat1 cat2 hchk
  unfold make_perturb_aufs
  rw [hchk]
  exact ⟨rfl, rfl⟩

/-- Witness for C7: the failing-validation branch at a concrete
configuration, showing the error is independent of the catalogue data. -/
theorem make_perturb_aufs_missing_parameter_witness :
    (make_perturb_aufs_checks { fullPerturbConfig with tri_filt_names := none } =
      some "tri_filt_names must be given if include_perturb_auf is True.") ∧
    (make_perturb_aufs (fun l => l) { fullPerturbConfig with tri_filt_names := none }
        [1] =
      Except.error "tri_filt_names must be given if include_perturb_auf is True.") ∧
    (make_perturb_aufs (fun l => l) { fullPerturbConfig with tri_filt_names := none }
        [1] =
      make_perturb_aufs (fun l => l) { fullPerturbConfig with tri_filt_names := none }
        [2, 3]) :=
  ⟨rfl,
    ((make_perturb_aufs_missing_parameter.2.2.2.2.2.2.2.2.2.2.2.2.2.2.2.2.2.2.2.2.2.2.2.2.2)
      { fullPerturbConfig with tri_filt_names := none }
      "tri_filt_names must be given if include_perturb_auf is True."
      (fun l => l) [1] [2, 3] rfl).1,
    ((make_perturb_aufs_missing_parameter.2.2.2.2.2.2.2.2.2.2.2.2.2.2.2.2.2.2.2.2.2.2.2.2.2)
      { fullPerturbConfig with tri_filt_names := none }
      "tri_filt_names must be given if include_perturb_auf is True."
      (fun l => l) [1] [2, 3] rfl).2⟩

/-- C8: `hav_dist_constant_lat` returns exactly
degrees(2 arcsin(abs(cos(radians x_lat) sin(radians((x_lon - lon)/2))))),
which equals the full Haversine great-circle separation formula specialised
to zero latitude difference; and for every positive padding the longitude
cut admits a source exactly when this Haversine distance is at most the
padding or the shifted-longitude inequality holds. -/
theorem hav_dist_constant_lat_correct (x_lon x_lat lon padding lon_shift : ℝ)
    (lesser : Bool) (hp : 0 < padding) :
    hav_dist_constant_lat x_lon x_lat lon =
      degrees (2 * Real.arcsin |Real.cos (radians x_lat) *
        Real.sin (radians ((x_lon - lon) / 2))|) ∧
    hav_dist_constant_lat x_lon x_lat lon = haversine_dist x_lon x_lat lon x_lat ∧
    (lon_cut x_lon x_lat lon padding lesser lon_shift ↔
      (hav_dist_constant_lat x_lon x_lat lon ≤ padding ∨
        inequal_lon_cut x_lon lon lon_shift lesser)) := by
  refine ⟨rfl, ?_, ?_⟩
  · unfold hav_dist_constant_lat haversine_dist
    have h0 : radians ((x_lat - x_lat) / 2) = 0 := by
      simp [radians]
    rw [h0, Real.sin_zero]
    have h2 : (0:ℝ) ^ 2 + Real.cos (radians x_lat) * Real.cos (radians x_lat) *
        Real.sin (radians ((x_lon - lon) / 2)) ^ 2 =
        (Real.cos (radians x_lat) * Real.sin (radians ((x_lon - lon) / 2))) ^ 2 := by
      ring
    rw [h2, Real.sqrt_sq_eq_abs]
  · unfold lon_cut
    rw [if_pos hp]

/-- Witness for C8 at the zero point with unit padding. -/
theorem hav_dist_constant_lat_correct_witness :
    ((0:ℝ) < 1) ∧
    (hav_dist_constant_lat 0 0 0 =
      degrees (2 * Real.arcsin |Real.cos (radians 0) *
        Real.sin (radians ((0 - 0) / 2))|) ∧
    hav_dist_constant_lat 0 0 0 = haversine_dist 0 0 0 0 ∧
    (lon_cut 0 0 0 1 true 0 ↔
      (hav_dist_constant_lat 0 0 0 ≤ 1 ∨ inequal_lon_cut 0 0 0 true))) :=
  ⟨by norm_num, hav_dist_constant_lat_correct 0 0 0 1 0 true (by norm_num)⟩

/-- C2: the astrometric match likelihood of two sources equals
1/(2 pi sigma^2) exp(-sep^2/(2 sigma^2)) exactly, with sigma^2 the
quadrature sum of the two positional uncertainties and sep the great-circle
separation with the cosine-of-latitude correction on the longitude
component. -/
theorem astrometric_likelihood_formula (A B : Source) :
    astrometric_likelihood A B =
      1 / (2 * Real.pi * (A.sig ^ 2 + B.sig ^ 2)) *
        Real.exp (-(sep_cos_lat A B) ^ 2 / (2 * (A.sig ^ 2 + B.sig ^ 2))) := by
  unfold astrometric_likelihood gauss2d combined_sigma_sq sep_cos_lat
  rw [Real.sq_sqrt (by positivity)]

theorem mem_zipWith_exists {α β γ : Type} (f : α → β → γ) :
    ∀ (l1 : List α) (l2 : List β) (x : γ), x ∈ List.zipWith f l1 l2 →
      ∃ c ∈ l1, ∃ a ∈ l2, x = f c a := by
  intro l1
  induction l1 with
  | nil =>
    intro l2 x hx
    simp at hx
  | cons c t ih =>
    intro l2 x hx
    cases l2 with
    | nil => simp at hx
    | cons a t2 =>
      rw [List.zipWith_cons_cons, List.mem_cons] at hx
      rcases hx with rfl | hx
      · exact ⟨c, by simp, a, by simp, rfl⟩
      · obtain ⟨c', hc', a', ha', rfl⟩ := ih t2 x hx
        exact ⟨c', by simp [hc'], a', by simp [ha'], rfl⟩

/-- C10: `calculate_local_density` replaces every zero bright-neighbour
count by one before dividing by the circle-overlap area (and assigns one
directly when a sub-chunk has no bright sources at all), so with positive
overlap areas every returned density entry is strictly positive. -/
theorem calculate_local_density_positive (hb : Bool) (counts : List Nat)
    (areas : List ℚ) (hpos : ∀ a ∈ areas, 0 < a) :
    (∀ c ∈ local_density_full_counts hb counts, 1 ≤ c) ∧
    (∀ d ∈ count_density hb counts areas, 0 < d) := by
  have hone : ∀ c ∈ local_density_full_counts hb counts, 1 ≤ c := by
    intro c hc
    cases hb with
    | true =>
      simp only [local_density_full_counts, if_true] at hc
      obtain ⟨c', _, rfl⟩ := List.mem_map.mp hc
      by_cases h : c' = 0
      · simp [h]
      · simp only [if_neg h]
        omega
    | false =>
      simp only [local_density_full_counts, Bool.false_eq_true, if_false] at hc
      obtain ⟨c', _, rfl⟩ := List.mem_map.mp hc
      exact le_refl 1
  refine ⟨hone, ?_⟩
  intro d hd
  unfold count_density at hd
  obtain ⟨c, hc, a, ha, rfl⟩ :=
    mem_zipWith_exists (fun (c : Nat) (a : ℚ) => (c : ℚ) / a)
      (local_density_full_counts hb counts) areas d hd
  have h1 : (1:ℚ) ≤ (c:ℚ) := by exact_mod_cast hone c hc
  have h2 : 0 < a := hpos a ha
  exact div_pos (lt_of_lt_of_le one_pos h1) h2

/-- Witness for C10: counts 0 and 2 against positive areas 1/2 and 3 give
full counts at least one and strictly positive densities. -/
theorem calculate_local_density_positive_witness :
    (∀ a ∈ ([1/2, 3] : List ℚ), 0 < a) ∧
    ((∀ c ∈ local_density_full_counts true [0, 2], 1 ≤ c) ∧
      (∀ d ∈ count_density true [0, 2] [1/2, 3], 0 < d)) :=
  ⟨by intro a ha; fin_cases ha <;> norm_num,
    calculate_local_density_positive true [0, 2] [1/2, 3]
      (by intro a ha; fin_cases ha <;> norm_num)⟩

end Macauff
